import Mathlib

/-!
# Verification of the sync decision engine of `mastodon-bluesky-sync`

Shallow embedding of `src/sync.rs`. Text is modelled as `List Char`: one
`Char` per user-perceived character, so the Rust grapheme-cluster counts of
`unicode_segmentation` become list lengths, and the byte offsets of Bluesky
rich-text facets become offsets into the character list (exact on ASCII
payloads). Rust functions that can panic (`expect`, `unwrap`, vector
indexing) are embedded in the `Option` monad where `none` marks the panic.
The `while` loops of the two shortening functions are embedded twice: as an
unconditional step iteration (`shorten_iter`) used to state when the Rust
loop halts, and as a fuel-bounded evaluator (`shorten_go`) whose fuel is
provably sufficient whenever the Rust loop halts.
-/

set_option autoImplicit false
set_option maxRecDepth 16000

namespace MBSync

/-- Program text, one entry per character / grapheme cluster. -/
abbrev Str := List Char

/-- Convert a Lean string literal to the character-list representation. -/
def str (s : String) : Str := s.toList

/-- Grapheme-cluster count (`text.graphemes(true).count()` in the source);
graphemes are modelled one-to-one with characters. -/
def grapheme_count (s : Str) : Nat := s.length

/-- Whitespace as matched by Rust `char::is_whitespace` / regex `\s`,
restricted to the whitespace characters the embedding distinguishes. -/
def is_ws (c : Char) : Bool := c = ' ' || c = '\t' || c = '\n' || c = '\r'

/-- Rust `str::trim`: drop leading and trailing whitespace. -/
def trim_str (s : Str) : Str :=
  ((s.dropWhile is_ws).reverse.dropWhile is_ws).reverse

/-- `Regex::new(r"[^\s]+$").replace_all(s, "")`: remove the maximal run of
non-whitespace characters at the end of the text (no match when the text
ends in whitespace). -/
def drop_last_word (s : Str) : Str :=
  (s.reverse.dropWhile (fun c => !is_ws c)).reverse

/-- One pass of Rust `String::replace(pat, rep)` driven by explicit fuel:
left-to-right, non-overlapping, the replacement is not rescanned. -/
def replace_all_go (pat rep : Str) : Nat → Str → Str
  | 0, s => s
  | _ + 1, [] => []
  | n + 1, c :: rest =>
    if pat ≠ [] && pat.isPrefixOf (c :: rest) then
      rep ++ replace_all_go pat rep n ((c :: rest).drop pat.length)
    else
      c :: replace_all_go pat rep n rest

/-- Rust `String::replace(pat, rep)`. The callers in `sync.rs` only pass
non-empty patterns, so fuel `s.length` covers the whole scan. -/
def replace_all (pat rep s : Str) : Str := replace_all_go pat rep s.length s

/-- Rust `str::contains(needle)` substring test. -/
def str_contains : Str → Str → Bool
  | [], needle => needle.isEmpty
  | c :: rest, needle => needle.isPrefixOf (c :: rest) || str_contains rest needle

/-- Rust `str::starts_with('@')` specialised to a single-character pattern. -/
def starts_with_char (s : Str) (c : Char) : Bool :=
  match s with
  | [] => false
  | d :: _ => d = c

/-- Rust `str::to_lowercase`, modelled character-wise. -/
def to_lowercase (s : Str) : Str := s.map Char.toLower

/-- Models the external `voca_rs::strip::strip_tags` call on plain input:
drop every maximal segment between `<` and `>`. The boolean is the
"currently inside a tag" state. -/
def strip_tags_go : Bool → Str → Str
  | _, [] => []
  | false, c :: rest =>
    if c = '<' then strip_tags_go true rest else c :: strip_tags_go false rest
  | true, c :: rest =>
    if c = '>' then strip_tags_go false rest else strip_tags_go true rest

/-- Models the external `voca_rs::strip::strip_tags` crate call. -/
def strip_tags (s : Str) : Str := strip_tags_go false s

/-- Models the external `html_escape::decode_html_entities` crate call on
the named entities relevant here; `&amp;` is decoded last so that e.g.
`&amp;lt;` decodes to `&lt;` and not to `<`. -/
def decode_html_entities (s : Str) : Str :=
  replace_all (str "&amp;") (str "&")
    (replace_all (str "&#39;") (str "'")
      (replace_all (str "&quot;") (str "\"")
        (replace_all (str "&gt;") (str ">")
          (replace_all (str "&lt;") (str "<") s))))

/-! ## Data model

Only the fields of the external `megalodon` / `bsky_sdk` records that
`sync.rs` reads are modelled. -/

/-- A Mastodon media attachment (`megalodon::entities::Attachment`):
`url` and optional `description`. -/
structure Attachment where
  url : Str
  description : Option Str
deriving DecidableEq, Repr

/-- The boxed `Status` inside `Status::reblog`, restricted to the fields
the code reads from a reblog (`account.username`, `content`, `url`,
`media_attachments`). -/
structure Reblog where
  account_username : Str
  content : Str
  url : Option Str
  media_attachments : List Attachment
deriving DecidableEq, Repr

/-- A Mastodon status (`megalodon::entities::Status`), restricted to the
fields `sync.rs` reads. -/
structure Status where
  content : Str
  in_reply_to_id : Option Str
  url : Option Str
  reblog : Option Reblog
  media_attachments : List Attachment
deriving DecidableEq, Repr

/-- A Bluesky rich-text facet feature (`MainFeaturesItem`): a link with a
URI, or any other feature kind. -/
inductive FacetFeature where
  | link (uri : Str)
  | other
deriving DecidableEq, Repr

/-- A Bluesky rich-text facet: a byte range plus its feature list. -/
structure Facet where
  byte_start : Nat
  byte_end : Nat
  features : List FacetFeature
deriving DecidableEq, Repr

/-- A parsed Bluesky post record (`app.bsky.feed.post::RecordData`):
text plus optional facets. The `TryFromUnknown` parse step of the source
is modelled as already done. -/
structure RecordData where
  text : Str
  facets : Option (List Facet)
deriving DecidableEq, Repr

/-- A Bluesky embedded image (`fullsize` URL and `alt` text). -/
structure BskyImage where
  fullsize : Str
  alt : Str
deriving DecidableEq, Repr

/-- The embed of a Bluesky post view (`PostViewEmbedRefs`): an images view,
a quoted record view (author handle plus parsed quoted record), or any
other embed kind. -/
inductive EmbedView where
  | images (images : List BskyImage)
  | record (author_handle : Str) (value : RecordData)
  | otherEmbed
deriving DecidableEq, Repr

/-- The viewer state of a Bluesky post (`viewer.repost` marks a repost). -/
structure Viewer where
  repost : Option Str
deriving DecidableEq, Repr

/-- A Bluesky post view (`PostViewData`), restricted to the fields
`sync.rs` reads. -/
structure PostView where
  record : RecordData
  viewer : Option Viewer
  author_handle : Str
  embed : Option EmbedView
  uri : Str
deriving DecidableEq, Repr

/-- A Bluesky feed item (`FeedViewPostData`): the post view plus the
optional reply reference. -/
structure FeedViewPost where
  post : PostView
  reply : Option Unit
deriving DecidableEq, Repr

/-- `NewMedia` from `sync.rs`. -/
structure NewMedia where
  attachment_url : Str
  alt_text : Option Str
deriving DecidableEq, Repr

/-- `NewStatus` from `sync.rs`; `replies` makes the type recursive, so it
is an inductive with projection functions. -/
inductive NewStatus where
  | mk (text : Str) (attachments : List NewMedia) (replies : List NewStatus)
       (in_reply_to_id : Option Str)

/-- The `text` field of a `NewStatus`. -/
def NewStatus.text : NewStatus → Str
  | .mk t _ _ _ => t

/-- The `attachments` field of a `NewStatus`. -/
def NewStatus.attachments : NewStatus → List NewMedia
  | .mk _ a _ _ => a

/-- The `replies` field of a `NewStatus`. -/
def NewStatus.replies : NewStatus → List NewStatus
  | .mk _ _ r _ => r

/-- The `in_reply_to_id` field of a `NewStatus`. -/
def NewStatus.in_reply_to_id : NewStatus → Option Str
  | .mk _ _ _ i => i

/-- `StatusUpdates` from `sync.rs`. -/
structure StatusUpdates where
  bsky_posts : List NewStatus
  toots : List NewStatus

/-- `StatusUpdates::reverse_order`: reverse both queues (the in-place Rust
mutation becomes a functional update). -/
def StatusUpdates.reverse_order (u : StatusUpdates) : StatusUpdates :=
  { bsky_posts := u.bsky_posts.reverse, toots := u.toots.reverse }

/-- `SyncOptions` from `sync.rs`; the optional hashtag filters carry the
filter string. -/
structure SyncOptions where
  sync_reblogs : Bool
  sync_reposts : Bool
  sync_hashtag_bluesky : Option Str
  sync_hashtag_mastodon : Option Str

/-! ## The shortening loops (`bsky_post_shorten`, `toot_shorten`)

Both `while char_count > limit` loops of `sync.rs` have the same body:
drop the last whitespace-delimited token from `shortened`, rebuild
`with_link` (ellipsis, space, link appended when a link is available) and
recount. The loop state is `(char_count, shortened, with_link)`. -/

/-- Loop state: Rust locals `(char_count, shortened, with_link)`. -/
structure ShortenState where
  char_count : Nat
  shortened : Str
  with_link : Str
deriving DecidableEq, Repr

/-- One execution of the loop body: remove the last word, re-append the
link when one is supplied, recount `with_link` in grapheme clusters. -/
def shorten_step (url : Option Str) (st : ShortenState) : ShortenState :=
  let s := trim_str (drop_last_word st.shortened)
  let wl := match url with
    | some u => s ++ '…' :: ' ' :: u
    | none => s
  ⟨grapheme_count wl, s, wl⟩

/-- The state after `n` unconditional executions of the loop body; the Rust
loop halts exactly when some iterate's count is within the limit. -/
def shorten_iter (url : Option Str) : Nat → ShortenState → ShortenState
  | 0, st => st
  | n + 1, st => shorten_iter url n (shorten_step url st)

/-- The initial loop state: `char_count` counts the untrimmed input while
`shortened` and `with_link` start from the trimmed input. -/
def shorten_init (text : Str) : ShortenState :=
  ⟨grapheme_count text, trim_str text, trim_str text⟩

/-- The Rust `while char_count > limit` loop halts on this input: some
iterate of the body (including the initial state, for the never-entered
loop) has its count within the limit. -/
def shorten_halts (limit : Nat) (url : Option Str) (text : Str) : Prop :=
  ∃ n, (shorten_iter url n (shorten_init text)).char_count ≤ limit

/-- Fuel-driven evaluation of the `while char_count > limit { ... }` loop,
returning `with_link` at the first state within the limit. -/
def shorten_go (limit : Nat) (url : Option Str) : Nat → ShortenState → Str
  | 0, st => st.with_link
  | n + 1, st =>
    if limit < st.char_count then shorten_go limit url n (shorten_step url st)
    else st.with_link

/-- Run a shortening loop on `text`. Fuel `|trim text| + 2` is enough:
every body execution on a non-empty trimmed `shortened` strictly shrinks
it, and once `shortened` is empty the state is a fixpoint of the body. -/
def shorten_run (limit : Nat) (url : Option Str) (text : Str) : Str :=
  shorten_go limit url ((trim_str text).length + 2) (shorten_init text)

/-- `bsky_post_shorten` from `sync.rs` (lines 286-306): Bluesky limit 300,
the link is the toot URL when present. -/
def bsky_post_shorten (text : Str) (toot_url : Option Str) : Str :=
  shorten_run 300 toot_url text

/-- `Regex::new(r"[^/]+$").find(uri)`: the maximal run of non-slash
characters at the end of the URI, `none` when the URI is empty or ends in
a slash (where the source's `.unwrap()` panics). -/
def last_uri_segment (uri : Str) : Option Str :=
  let seg := (uri.reverse.takeWhile (fun c => c ≠ '/')).reverse
  if seg = [] then none else some seg

/-- The Bluesky permalink built inside `toot_shorten`:
`https://bsky.app/profile/{handle}/post/{post_id}`. -/
def toot_shorten_link (post : PostView) (post_id : Str) : Str :=
  str "https://bsky.app/profile/" ++ post.author_handle ++ str "/post/" ++ post_id

/-- `toot_shorten` from `sync.rs` (lines 310-340): return the text
unchanged when within the Mastodon limit of 500, otherwise extract the
post id from the URI (`none` models the `.unwrap()` panic on a URI without
a trailing segment) and run the shortening loop with the permalink. -/
def toot_shorten (text : Str) (post : PostView) : Option Str :=
  if grapheme_count text ≤ 500 then some text
  else
    match last_uri_segment post.uri with
    | none => none
    | some post_id => some (shorten_run 500 (some (toot_shorten_link post post_id)) text)

/-! ## Content normalization and decoding -/

/-- `mastodon_toot_get_text` from `sync.rs` (lines 343-360): boost prefix,
line-break markup to newlines, tag stripping, mention escaping, HTML
entity decoding. -/
def mastodon_toot_get_text (toot : Status) : Str :=
  let replaced := match toot.reblog with
    | none => toot.content
    | some reblog =>
      str "♻️ " ++ reblog.account_username ++ str ": " ++ reblog.content
  let replaced := replace_all (str "<br />") (str "\n") replaced
  let replaced := replace_all (str "<br>") (str "\n") replaced
  let replaced := replace_all (str "</p><p>") (str "\n\n") replaced
  let replaced := replace_all (str "<p>") (str "") replaced
  let replaced := replace_all (str "</p>") (str "") replaced
  let replaced := strip_tags replaced
  let replaced := replace_all (str " @") (str " @\\") replaced
  let replaced := replace_all (str " @\\\\") (str " @\\") replaced
  decode_html_entities replaced

/-- `unify_post_content` from `sync.rs` (lines 219-229): lowercase, remove
URL schemes, undo mention escaping for comparison. -/
def unify_post_content (content : Str) : Str :=
  let result := to_lowercase content
  let result := replace_all (str "http://") (str "") result
  let result := replace_all (str "https://") (str "") result
  let result := replace_all (str " \\@") (str " @") result
  replace_all (str " @\\") (str " @") result

/-- `bsky_record_get_text` from `sync.rs` (lines 267-284): replace each
link facet's byte range in the ORIGINAL record text with the link URI (the
source rebuilds from `bsky_record.text` on every facet, so a later link
facet overwrites the effect of an earlier one). An empty feature list
models the panicking `facet.features[0]` index as `none`. -/
def bsky_record_get_text (record : RecordData) : Option Str :=
  match record.facets with
  | none => some record.text
  | some facets =>
    facets.foldlM
      (fun text facet =>
        match facet.features with
        | [] => none
        | feature :: _ =>
          match feature with
          | .link uri =>
            some (record.text.take facet.byte_start ++ uri ++ record.text.drop facet.byte_end)
          | .other => some text)
      record.text

/-- `bsky_post_unshorten_decode` from `sync.rs` (lines 233-264): facet
expansion, repost prefix, quote-post flattening, Mastodon-limit
shortening. `none` models a panic (record parse or `toot_shorten`). -/
def bsky_post_unshorten_decode (bsky_post : FeedViewPost) : Option Str := do
  let base ← bsky_record_get_text bsky_post.post.record
  let text := match bsky_post.post.viewer with
    | some viewer =>
      match viewer.repost with
      | some _ => str "♻️ " ++ bsky_post.post.author_handle ++ str ": " ++ base
      | none => base
    | none => base
  let text ← match bsky_post.post.embed with
    | some (.record quote_handle quote_value) => do
      let quote_text ← bsky_record_get_text quote_value
      pure (text ++ str "\n\n💬 " ++ quote_handle ++ str ": " ++ quote_text)
    | _ => pure text
  toot_shorten text bsky_post.post

/-- `toot_and_post_are_equal` from `sync.rs` (lines 187-216): structural
reply gate, unified-text comparison, then comparison against the shortened
unified toot text. `none` models the decode panic. -/
def toot_and_post_are_equal (toot : Status) (bsky_post : FeedViewPost) : Option Bool := do
  if (toot.in_reply_to_id.isSome && bsky_post.reply.isNone)
      || (toot.in_reply_to_id.isNone && bsky_post.reply.isSome) then
    return false
  let toot_text := unify_post_content (mastodon_toot_get_text toot)
  let decoded ← bsky_post_unshorten_decode bsky_post
  let bsky_text := unify_post_content decoded
  if toot_text = bsky_text then
    return true
  let shortened_toot := unify_post_content (match toot.reblog with
    | none => bsky_post_shorten toot_text toot.url
    | some reblog => bsky_post_shorten toot_text reblog.url)
  if shortened_toot = bsky_text then
    return true
  return false

/-! ## Attachments -/

/-- `truncate_option_string` from `sync.rs` (lines 475-483): cut the
string off after `max_chars` characters (Rust `char_indices().nth`). -/
def truncate_option_string (stringy : Option Str) (max_chars : Nat) : Option Str :=
  match stringy with
  | some string =>
    if string.length ≤ max_chars then some string else some (string.take max_chars)
  | none => none

/-- `bsky_get_attachments` from `sync.rs` (lines 422-443): images of an
images embed, the alt text passed through unmodified. -/
def bsky_get_attachments (bsky_post : FeedViewPost) : List NewMedia :=
  match bsky_post.post.embed with
  | some (.images images) =>
    images.map (fun image => ⟨image.fullsize, some image.alt⟩)
  | _ => []

/-- `toot_get_attachments` from `sync.rs` (lines 446-465): the toot's
attachments (or the boost's when the toot has none), the description
truncated to 1000 characters. -/
def toot_get_attachments (toot : Status) : List NewMedia :=
  let attachments :=
    if toot.media_attachments.isEmpty then
      match toot.reblog with
      | some boost => boost.media_attachments
      | none => toot.media_attachments
    else toot.media_attachments
  attachments.map (fun attachment =>
    ⟨attachment.url, truncate_option_string attachment.description 1000⟩)

/-! ## The sync planner (`determine_posts`) -/

/-- The inner scan of the Bluesky pass (`sync.rs` lines 91-101): walk the
Mastodon list, skip replies, report whether some toot equals the post.
`none` models a panic inside the equality check. -/
def find_equal_toot (mastodon_statuses : List Status) (post : FeedViewPost) : Option Bool :=
  match mastodon_statuses with
  | [] => some false
  | toot :: rest =>
    if toot.in_reply_to_id.isSome then find_equal_toot rest post
    else do
      let equal ← toot_and_post_are_equal toot post
      if equal then some true else find_equal_toot rest post

/-- The inner scan of the Mastodon pass (`sync.rs` lines 144-150): walk
the Bluesky list (no reply skip here), report whether some post equals the
toot. -/
def find_equal_post (bsky_statuses : List FeedViewPost) (toot : Status) : Option Bool :=
  match bsky_statuses with
  | [] => some false
  | bsky_post :: rest => do
    let equal ← toot_and_post_are_equal toot bsky_post
    if equal then some true else find_equal_post rest toot

/-- The hashtag-filter skip condition (`sync.rs` lines 108-113 and
154-159): skip when a filter is configured, non-empty and not contained in
the candidate text. -/
def hashtag_skips (filter : Option Str) (text : Str) : Bool :=
  match filter with
  | some sync_hashtag => !sync_hashtag.isEmpty && !str_contains text sync_hashtag
  | none => false

/-- The `'bsky` pass of `determine_posts` (`sync.rs` lines 76-121), in
append order: skip replies, skip reposts when disabled, stop the whole
pass on the first post already found on Mastodon, decode, apply the
hashtag filter, emit a candidate toot. -/
def bsky_pass (mastodon_statuses : List Status) (options : SyncOptions) :
    List FeedViewPost → Option (List NewStatus)
  | [] => some []
  | post :: rest =>
    if post.reply.isSome then bsky_pass mastodon_statuses options rest
    else if !options.sync_reposts
        && (match post.post.viewer with
            | some viewer => viewer.repost.isSome
            | none => false) then
      bsky_pass mastodon_statuses options rest
    else do
      let found ← find_equal_toot mastodon_statuses post
      if found then some []
      else do
        let decoded_post ← bsky_post_unshorten_decode post
        if hashtag_skips options.sync_hashtag_bluesky decoded_post then
          bsky_pass mastodon_statuses options rest
        else do
          let tail ← bsky_pass mastodon_statuses options rest
          pure (NewStatus.mk decoded_post (bsky_get_attachments post) [] none :: tail)

/-- The shortened candidate text the Mastodon pass computes for a toot
(`sync.rs` lines 133-138): the Bluesky-limit shortening of the canonical
text with the toot's URL, or the original toot's URL for a boost. -/
def toot_candidate_text (toot : Status) : Str :=
  match toot.reblog with
  | none => bsky_post_shorten (mastodon_toot_get_text toot) toot.url
  | some reblog => bsky_post_shorten (mastodon_toot_get_text toot) reblog.url

/-- The `'toots` pass of `determine_posts` (`sync.rs` lines 123-167), in
append order: skip replies, skip reblogs when disabled, skip direct toots
(shortened text starting with `@`) before the equality scan, stop the
whole pass on the first toot already found on Bluesky, apply the hashtag
filter, emit a candidate Bluesky post. -/
def toot_pass (bsky_statuses : List FeedViewPost) (options : SyncOptions) :
    List Status → Option (List NewStatus)
  | [] => some []
  | toot :: rest =>
    if toot.in_reply_to_id.isSome then toot_pass bsky_statuses options rest
    else if toot.reblog.isSome && !options.sync_reblogs then
      toot_pass bsky_statuses options rest
    else if starts_with_char (toot_candidate_text toot) '@' then
      toot_pass bsky_statuses options rest
    else do
      let found ← find_equal_post bsky_statuses toot
      if found then some []
      else if hashtag_skips options.sync_hashtag_mastodon (mastodon_toot_get_text toot) then
        toot_pass bsky_statuses options rest
      else do
        let tail ← toot_pass bsky_statuses options rest
        pure (NewStatus.mk (toot_candidate_text toot) (toot_get_attachments toot) [] none :: tail)

/-- `determine_posts` from `sync.rs` (lines 67-175): run both passes and
reverse both queues so that older candidates come first. `none` models a
panic while decoding a Bluesky post. -/
def determine_posts (mastodon_statuses : List Status)
    (bsky_statuses : List FeedViewPost) (options : SyncOptions) :
    Option StatusUpdates := do
  let toots ← bsky_pass mastodon_statuses options bsky_statuses
  let bsky_posts ← toot_pass bsky_statuses options mastodon_statuses
  pure (StatusUpdates.reverse_order { bsky_posts := bsky_posts, toots := toots })

/-! ## Duplicate-post guard -/

/-- One filtering loop of `filter_posted_before` (`sync.rs` lines 378-394):
keep the candidates whose text is not in the cache (dropping a cached
candidate also prints a warning, a side effect outside the embedding). -/
def filter_cached (post_cache : Finset Str) : List NewStatus → List NewStatus
  | [] => []
  | post :: rest =>
    if post.text ∈ post_cache then filter_cached post_cache rest
    else post :: filter_cached post_cache rest

/-- `filter_posted_before` from `sync.rs` (lines 365-397): the `HashSet`
cache is modelled as a `Finset`; the `anyhow::Result` return type is
modelled as `Except`. -/
def filter_posted_before (posts : StatusUpdates) (post_cache : Finset Str) :
    Except Str StatusUpdates :=
  if posts.toots.isEmpty && posts.bsky_posts.isEmpty then .ok posts
  else
    .ok { bsky_posts := filter_cached post_cache posts.bsky_posts,
          toots := filter_cached post_cache posts.toots }

/-- `read_post_cache` from `sync.rs` (lines 400-419). The file system read
is modelled by its result (`none` = unreadable file) and the external
`serde_json` parse by an explicit parse function (`none` = parse error). -/
def read_post_cache (file : Option Str) (parse : Str → Option (Finset Str)) :
    Finset Str :=
  match file with
  | some json =>
    match parse json with
    | some cache => if 150 < cache.card then ∅ else cache
    | none => ∅
  | none => ∅

/-- The image list of a Bluesky images embed (empty for any other embed);
the source list `bsky_get_attachments` maps over. -/
def embed_images (bsky_post : FeedViewPost) : List BskyImage :=
  match bsky_post.post.embed with
  | some (.images images) => images
  | _ => []

/-- Every loop `toot_shorten` can enter on this text halts: for the post
id the `[^/]+$` regex extracts from the URI, the 500-limit loop with the
derived permalink halts. -/
def toot_shorten_halts (text : Str) (post : PostView) : Prop :=
  ∀ post_id, last_uri_segment post.uri = some post_id →
    shorten_halts 500 (some (toot_shorten_link post post_id)) text

/-! ## Concrete example inputs -/

/-- Sync options with every option disabled (`SyncOptions::default()`). -/
def default_options : SyncOptions := ⟨false, false, none, none⟩

/-- A toot whose canonical text (301 characters) exceeds the Bluesky limit
while its canonicalized comparison text (293 characters, scheme removed)
does not. -/
def c1_toot : Status :=
  { content := List.replicate 290 'a' ++ str " https://hh"
  , in_reply_to_id := none
  , url := some (str "m.si/9")
  , reblog := none
  , media_attachments := [] }

/-- What the planner would post to Bluesky for `c1_toot`: the 300-limit
shortening of its canonical text with its URL. -/
def c1_posted_text : Str :=
  bsky_post_shorten (mastodon_toot_get_text c1_toot) c1_toot.url

/-- A plain Bluesky post whose decoded text is exactly `c1_posted_text`. -/
def c1_post : FeedViewPost :=
  { post := { record := { text := c1_posted_text, facets := none }
            , viewer := none
            , author_handle := str "h"
            , embed := none
            , uri := str "at://x/y/z" }
  , reply := none }

/-- A short toot for the amended round-trip claim. -/
def c1w_toot : Status :=
  { content := str "hi there"
  , in_reply_to_id := none
  , url := some (str "u")
  , reblog := none
  , media_attachments := [] }

/-- The 300-limit shortening of the canonicalized comparison text of
`c1w_toot` (a no-op on this short text). -/
def c1w_text : Str :=
  bsky_post_shorten (unify_post_content (mastodon_toot_get_text c1w_toot)) c1w_toot.url

/-- A plain Bluesky post whose decoded text is exactly `c1w_text`. -/
def c1w_post : FeedViewPost :=
  { post := { record := { text := c1w_text, facets := none }
            , viewer := none
            , author_handle := str "h"
            , embed := none
            , uri := str "at://x/y/z" }
  , reply := none }

/-- A single 301-character token: over the Bluesky limit, and the one
token drop empties the text. -/
def c2_text : Str := List.replicate 301 'a'

/-- A 301-character link: even the bare appended link exceeds the limit. -/
def c2_url : Str := List.replicate 301 'b'

/-- A plain Bluesky post view used to exercise `toot_shorten`. -/
def w_post : PostView :=
  { record := { text := str "hi", facets := none }
  , viewer := none
  , author_handle := str "h"
  , embed := none
  , uri := str "at://x/y/z" }

/-- A plain toot with one attachment carrying a short description. -/
def w_toot : Status :=
  { content := str "hello world"
  , in_reply_to_id := none
  , url := some (str "https://m.s/1")
  , reblog := none
  , media_attachments := [⟨str "img", some (str "desc")⟩] }

/-- The planner output for `[w_toot]` against an empty Bluesky list. -/
def w_updates : StatusUpdates :=
  { bsky_posts := [NewStatus.mk (str "hello world")
      [⟨str "img", some (str "desc")⟩] [] none]
  , toots := [] }

/-- A Bluesky post with an images embed whose alt text has 1001
characters. -/
def c8_post : FeedViewPost :=
  { post := { record := { text := str "pic", facets := none }
            , viewer := none
            , author_handle := str "h"
            , embed := some (.images [{ fullsize := str "u", alt := List.replicate 1001 'x' }])
            , uri := str "at://x/y/z" }
  , reply := none }

/-- A toot whose shortened candidate text starts with `@`. -/
def c10_toot : Status :=
  { content := str "@b hi"
  , in_reply_to_id := none
  , url := some (str "https://m.s/1")
  , reblog := none
  , media_attachments := [] }

/-! ## Lemmas about the shortening loop -/

lemma length_dropWhile_le (p : Char → Bool) (l : Str) :
    (l.dropWhile p).length ≤ l.length := by
  induction l with
  | nil => simp [List.dropWhile]
  | cons c rest ih =>
    simp only [List.dropWhile]
    split
    · exact Nat.le_succ_of_le ih
    · simp

lemma dropWhile_head_false (p : Char → Bool) (l : Str) (c : Char) (rest : Str)
    (h : l.dropWhile p = c :: rest) : p c = false := by
  induction l with
  | nil => simp [List.dropWhile] at h
  | cons d tl ih =>
    simp only [List.dropWhile] at h
    split at h
    · exact ih h
    · rename_i hd
      cases h
      simpa using hd

lemma trim_str_length_le (s : Str) : (trim_str s).length ≤ s.length := by
  unfold trim_str
  calc ((s.dropWhile is_ws).reverse.dropWhile is_ws).reverse.length
      = ((s.dropWhile is_ws).reverse.dropWhile is_ws).length := by
        rw [List.length_reverse]
    _ ≤ (s.dropWhile is_ws).reverse.length := length_dropWhile_le _ _
    _ = (s.dropWhile is_ws).length := by rw [List.length_reverse]
    _ ≤ s.length := length_dropWhile_le _ _

/-- The reverse of a trimmed string starts with a non-whitespace character
(when non-empty): trimming removed all trailing whitespace. -/
lemma trim_str_reverse_head (s : Str) (c : Char) (rest : Str)
    (h : (trim_str s).reverse = c :: rest) : is_ws c = false := by
  unfold trim_str at h
  rw [List.reverse_reverse] at h
  exact dropWhile_head_false _ _ _ _ h

/-- Dropping the last word of a non-empty trimmed string strictly shrinks
it: its last character is not whitespace, so `[^\s]+$` matches. -/
lemma drop_last_word_trim_lt (x : Str) (h : trim_str x ≠ []) :
    (drop_last_word (trim_str x)).length < (trim_str x).length := by
  unfold drop_last_word
  rw [List.length_reverse]
  obtain ⟨c, rest, hrev⟩ : ∃ c rest, (trim_str x).reverse = c :: rest := by
    cases hx : (trim_str x).reverse with
    | nil =>
      exact absurd (by simpa using congrArg List.reverse hx) h
    | cons c rest => exact ⟨c, rest, rfl⟩
  have hc : is_ws c = false := trim_str_reverse_head x c rest hrev
  rw [hrev]
  have : List.dropWhile (fun c => !is_ws c) (c :: rest) = List.dropWhile (fun c => !is_ws c) rest := by
    simp [List.dropWhile, hc]
  rw [this]
  calc (List.dropWhile (fun c => !is_ws c) rest).length
      ≤ rest.length := length_dropWhile_le _ _
    _ < (c :: rest).length := by simp
    _ = (trim_str x).length := by rw [← hrev, List.length_reverse]

/-- The loop body shrinks a non-empty trimmed `shortened` strictly. -/
lemma shorten_step_shortened_lt (url : Option Str) (st : ShortenState) (x : Str)
    (hx : st.shortened = trim_str x) (hne : st.shortened ≠ []) :
    (shorten_step url st).shortened.length < st.shortened.length := by
  show (trim_str (drop_last_word st.shortened)).length < st.shortened.length
  calc (trim_str (drop_last_word st.shortened)).length
      ≤ (drop_last_word st.shortened).length := trim_str_length_le _
    _ < st.shortened.length := by
        rw [hx] at hne ⊢
        exact drop_last_word_trim_lt x hne

lemma shorten_step_shortened_trim (url : Option Str) (st : ShortenState) :
    (shorten_step url st).shortened = trim_str (drop_last_word st.shortened) := rfl

/-- Iterating the body one more time acts on the result. -/
lemma shorten_iter_succ (url : Option Str) (n : Nat) (st : ShortenState) :
    shorten_iter url (n + 1) st = shorten_step url (shorten_iter url n st) := by
  induction n generalizing st with
  | zero => rfl
  | succ m ih =>
    show shorten_iter url (m + 1) (shorten_step url st) = _
    rw [ih (shorten_step url st)]
    rfl

/-- Descent: after `k` body executions, `shortened` is empty or is a
trimmed string that lost at least `k` characters. -/
lemma shorten_iter_descent (url : Option Str) (text : Str) (k : Nat) :
    (shorten_iter url k (shorten_init text)).shortened = [] ∨
    ((∃ x, (shorten_iter url k (shorten_init text)).shortened = trim_str x) ∧
      (shorten_iter url k (shorten_init text)).shortened.length + k ≤ (trim_str text).length) := by
  induction k with
  | zero =>
    right
    refine ⟨⟨text, rfl⟩, ?_⟩
    have h0 : (shorten_iter url 0 (shorten_init text)).shortened = trim_str text := rfl
    simp [h0]
  | succ m ih =>
    rw [shorten_iter_succ]
    set st := shorten_iter url m (shorten_init text) with hst
    rcases ih with hemp | ⟨⟨x, hx⟩, hlen⟩
    · left
      show trim_str (drop_last_word st.shortened) = []
      rw [hemp]
      rfl
    · by_cases hne : st.shortened = []
      · left
        show trim_str (drop_last_word st.shortened) = []
        rw [hne]
        rfl
      · right
        refine ⟨⟨drop_last_word st.shortened, rfl⟩, ?_⟩
        have hlt := shorten_step_shortened_lt url st x hx hne
        omega

/-- After `|trim text|` body executions `shortened` is empty. -/
lemma shorten_iter_empty (url : Option Str) (text : Str) :
    (shorten_iter url ((trim_str text).length) (shorten_init text)).shortened = [] := by
  rcases shorten_iter_descent url text (trim_str text).length with h | ⟨_, hlen⟩
  · exact h
  · have : (shorten_iter url ((trim_str text).length) (shorten_init text)).shortened.length = 0 := by
      omega
    exact List.eq_nil_of_length_eq_zero this

/-- The body maps every state with empty `shortened` to the same state. -/
lemma shorten_step_of_empty (url : Option Str) (st : ShortenState)
    (h : st.shortened = []) :
    shorten_step url st =
      (match url with
       | some u => ⟨grapheme_count ('…' :: ' ' :: u), [], '…' :: ' ' :: u⟩
       | none => ⟨0, [], []⟩) := by
  cases url <;> simp [shorten_step, h, trim_str, drop_last_word, grapheme_count]

/-- States reached after exhausting the text are stable. -/
lemma shorten_iter_stable (url : Option Str) (text : Str) (n : Nat)
    (h : (trim_str text).length + 1 ≤ n) :
    shorten_iter url n (shorten_init text) =
      shorten_iter url ((trim_str text).length + 1) (shorten_init text) := by
  set L := (trim_str text).length with hL
  obtain ⟨j, rfl⟩ : ∃ j, n = (L + 1) + j := ⟨n - (L + 1), by omega⟩
  clear h
  induction j with
  | zero => rfl
  | succ i ih =>
    have hsucc : shorten_iter url ((L + 1) + (i + 1)) (shorten_init text) =
        shorten_step url (shorten_iter url ((L + 1) + i) (shorten_init text)) := by
      rw [show (L + 1) + (i + 1) = ((L + 1) + i) + 1 by omega, shorten_iter_succ]
    have hL0 : (shorten_iter url L (shorten_init text)).shortened = [] :=
      shorten_iter_empty url text
    have hL1 : shorten_iter url (L + 1) (shorten_init text) =
        shorten_step url (shorten_iter url L (shorten_init text)) :=
      shorten_iter_succ url L _
    have hL1e : (shorten_iter url (L + 1) (shorten_init text)).shortened = [] := by
      rw [hL1, shorten_step_of_empty url _ hL0]
      cases url <;> rfl
    rw [hsucc, ih, shorten_step_of_empty url _ hL1e, hL1, shorten_step_of_empty url _ hL0]

/-- A halting loop halts within `|trim text| + 1` body executions. -/
lemma shorten_halts_within (limit : Nat) (url : Option Str) (text : Str)
    (h : shorten_halts limit url text) :
    ∃ n, n ≤ (trim_str text).length + 1 ∧
      (shorten_iter url n (shorten_init text)).char_count ≤ limit := by
  obtain ⟨n, hn⟩ := h
  by_cases hle : n ≤ (trim_str text).length + 1
  · exact ⟨n, hle, hn⟩
  · refine ⟨(trim_str text).length + 1, Nat.le_refl _, ?_⟩
    rw [← shorten_iter_stable url text n (by omega)]
    exact hn

/-- After a body execution the count is exactly the length of `with_link`. -/
lemma shorten_step_count (url : Option Str) (st : ShortenState) :
    (shorten_step url st).char_count = grapheme_count (shorten_step url st).with_link := by
  cases url <;> rfl

/-- The fuelled evaluator returns a `with_link` within the limit whenever
some iterate within the fuel is within the limit. -/
lemma shorten_go_bound (limit : Nat) (url : Option Str) :
    ∀ (fuel : Nat) (st : ShortenState),
      grapheme_count st.with_link ≤ st.char_count →
      (∃ n, n ≤ fuel ∧ (shorten_iter url n st).char_count ≤ limit) →
      grapheme_count (shorten_go limit url fuel st) ≤ limit
  | 0, st, hinv, ⟨n, hn, hcc⟩ => by
    have hn0 : n = 0 := Nat.le_zero.mp hn
    subst hn0
    exact le_trans hinv hcc
  | fuel + 1, st, hinv, ⟨n, hn, hcc⟩ => by
    show grapheme_count (if limit < st.char_count then
      shorten_go limit url fuel (shorten_step url st) else st.with_link) ≤ limit
    split
    · rename_i hlt
      cases n with
      | zero => exact absurd hcc (by simpa using hlt)
      | succ m =>
        refine shorten_go_bound limit url fuel (shorten_step url st)
          (le_of_eq (shorten_step_count url st).symm) ⟨m, by omega, ?_⟩
        have : shorten_iter url (m + 1) st = shorten_iter url m (shorten_step url st) := rfl
        rw [← this]
        exact hcc
    · rename_i hge
      exact le_trans hinv (by omega)

/-- Whenever the Rust loop halts, the function's result is within the
limit (the loop's exit condition is exactly the bound). -/
lemma shorten_run_bound (limit : Nat) (url : Option Str) (text : Str)
    (h : shorten_halts limit url text) :
    grapheme_count (shorten_run limit url text) ≤ limit := by
  obtain ⟨n, hn, hcc⟩ := shorten_halts_within limit url text h
  exact shorten_go_bound limit url ((trim_str text).length + 2) (shorten_init text)
    (trim_str_length_le text) ⟨n, by omega, hcc⟩

/-- The loop halts whenever the appended link alone fits the limit: once
the text is exhausted the state counts only the ellipsis and the link. -/
lemma shorten_halts_of_link_fits (limit : Nat) (url : Option Str) (text : Str)
    (hfit : match url with
      | some u => grapheme_count u + 2 ≤ limit
      | none => True) :
    shorten_halts limit url text := by
  refine ⟨(trim_str text).length + 1, ?_⟩
  rw [shorten_iter_succ]
  rw [shorten_step_of_empty url _ (shorten_iter_empty url text)]
  cases url with
  | none => simp [grapheme_count]
  | some u =>
    have h2 : grapheme_count u + 2 ≤ limit := hfit
    simp only [grapheme_count, List.length_cons] at h2 ⊢
    omega

/-! ## Lemmas about the planner passes and the guard -/

/-- Every candidate emitted by the Bluesky pass comes from a non-reply
post of the input list, carries its decoded text and its attachments. -/
lemma bsky_pass_sound (m : List Status) (o : SyncOptions) :
    ∀ (b : List FeedViewPost) (out : List NewStatus),
      bsky_pass m o b = some out →
      ∀ ns ∈ out, ∃ p ∈ b, p.reply = none ∧
        bsky_post_unshorten_decode p = some ns.text ∧
        ns.attachments = bsky_get_attachments p
  | [], out, h => by
    have h' : some ([] : List NewStatus) = some out := h
    cases h'
    intro ns hns
    cases hns
  | post :: rest, out, h => by
    rw [bsky_pass] at h
    split at h
    · intro ns hns
      obtain ⟨p, hp, hrest⟩ := bsky_pass_sound m o rest out h ns hns
      exact ⟨p, List.mem_cons_of_mem _ hp, hrest⟩
    · split at h
      · intro ns hns
        obtain ⟨p, hp, hrest⟩ := bsky_pass_sound m o rest out h ns hns
        exact ⟨p, List.mem_cons_of_mem _ hp, hrest⟩
      · rename_i hnotreply _
        cases hfe : find_equal_toot m post with
        | none => rw [hfe] at h; cases h
        | some found =>
          rw [hfe] at h
          simp only [Option.bind_eq_bind, Option.some_bind] at h
          by_cases hfound : found = true
          · subst hfound
            simp only [if_pos rfl] at h
            cases h
            intro ns hns
            cases hns
          · rw [if_neg hfound] at h
            cases hdec : bsky_post_unshorten_decode post with
            | none => rw [hdec] at h; cases h
            | some decoded =>
              rw [hdec] at h
              simp only [Option.bind_eq_bind, Option.some_bind] at h
              split at h
              · intro ns hns
                obtain ⟨p, hp, hrest⟩ := bsky_pass_sound m o rest out h ns hns
                exact ⟨p, List.mem_cons_of_mem _ hp, hrest⟩
              · cases htl : bsky_pass m o rest with
                | none => rw [htl] at h; cases h
                | some tail =>
                  rw [htl] at h
                  simp only [Option.bind_eq_bind, Option.some_bind, Option.pure_def, Option.some.injEq] at h
                  subst h
                  intro ns hns
                  cases hns with
                  | head =>
                    refine ⟨post, List.mem_cons_self _ _, ?_, hdec, rfl⟩
                    cases hr : post.reply with
                    | none => rfl
                    | some r => rw [hr] at hnotreply; simp at hnotreply
                  | tail _ hmem =>
                    obtain ⟨p, hp, hrest⟩ := bsky_pass_sound m o rest tail htl ns hmem
                    exact ⟨p, List.mem_cons_of_mem _ hp, hrest⟩

/-- Every candidate emitted by the Mastodon pass comes from a non-reply
toot of the input list, carries its shortened candidate text and its
attachments. -/
lemma toot_pass_sound (b : List FeedViewPost) (o : SyncOptions) :
    ∀ (m : List Status) (out : List NewStatus),
      toot_pass b o m = some out →
      ∀ ns ∈ out, ∃ t ∈ m, t.in_reply_to_id = none ∧
        ns.text = toot_candidate_text t ∧
        ns.attachments = toot_get_attachments t
  | [], out, h => by
    have h' : some ([] : List NewStatus) = some out := h
    cases h'
    intro ns hns
    cases hns
  | toot :: rest, out, h => by
    rw [toot_pass] at h
    split at h
    · intro ns hns
      obtain ⟨t, ht, hrest⟩ := toot_pass_sound b o rest out h ns hns
      exact ⟨t, List.mem_cons_of_mem _ ht, hrest⟩
    · split at h
      · intro ns hns
        obtain ⟨t, ht, hrest⟩ := toot_pass_sound b o rest out h ns hns
        exact ⟨t, List.mem_cons_of_mem _ ht, hrest⟩
      · rename_i hnotreply _
        split at h
        · intro ns hns
          obtain ⟨t, ht, hrest⟩ := toot_pass_sound b o rest out h ns hns
          exact ⟨t, List.mem_cons_of_mem _ ht, hrest⟩
        · cases hfe : find_equal_post b toot with
          | none => rw [hfe] at h; cases h
          | some found =>
            rw [hfe] at h
            simp only [Option.bind_eq_bind, Option.some_bind] at h
            by_cases hfound : found = true
            · subst hfound
              simp only [if_pos rfl] at h
              cases h
              intro ns hns
              cases hns
            · rw [if_neg hfound] at h
              split at h
              · intro ns hns
                obtain ⟨t, ht, hrest⟩ := toot_pass_sound b o rest out h ns hns
                exact ⟨t, List.mem_cons_of_mem _ ht, hrest⟩
              · cases htl : toot_pass b o rest with
                | none => rw [htl] at h; cases h
                | some tail =>
                  rw [htl] at h
                  simp only [Option.bind_eq_bind, Option.some_bind, Option.pure_def, Option.some.injEq] at h
                  subst h
                  intro ns hns
                  cases hns with
                  | head =>
                    refine ⟨toot, List.mem_cons_self _ _, ?_, rfl, rfl⟩
                    cases hr : toot.in_reply_to_id with
                    | none => rfl
                    | some r => rw [hr] at hnotreply; simp at hnotreply
                  | tail _ hmem =>
                    obtain ⟨t, ht, hrest⟩ := toot_pass_sound b o rest tail htl ns hmem
                    exact ⟨t, List.mem_cons_of_mem _ ht, hrest⟩

/-- The guard's loop is `List.filter` by non-membership in the cache. -/
lemma filter_cached_eq_filter (post_cache : Finset Str) :
    ∀ l : List NewStatus,
      filter_cached post_cache l = l.filter (fun p => decide (p.text ∉ post_cache))
  | [] => rfl
  | post :: rest => by
    rw [filter_cached, filter_cached_eq_filter post_cache rest]
    by_cases hmem : post.text ∈ post_cache
    · simp [List.filter, hmem]
    · simp [List.filter, hmem]


/-! ## Claim theorems -/

/-- C1, counterexample: a non-reply toot and a non-reply Bluesky post
whose decoded text is exactly what the planner would have posted for the
toot (`bsky_post_shorten` of the toot's canonical text with the toot's
URL), yet `toot_and_post_are_equal` returns `false`: the matcher's step 3
shortens the canonicalized comparison text, whose scheme-free length is
already within the limit, so it never reproduces the truncated post. -/
theorem C1_round_trip_counterexample :
    c1_toot.in_reply_to_id = none ∧ c1_post.reply = none ∧
    bsky_post_unshorten_decode c1_post =
      some (bsky_post_shorten (mastodon_toot_get_text c1_toot) c1_toot.url) ∧
    toot_and_post_are_equal c1_toot c1_post = some false := by
  refine ⟨rfl, rfl, by decide, by decide⟩

/-- C1, amended: for every non-reply, non-reblog Mastodon toot, if the
Bluesky side contains a non-reply post whose decoded text is exactly the
platform-B shortening rule applied to the toot's canonicalized comparison
text (`unify_post_content` of `mastodon_toot_get_text`) with the toot's
URL, then `toot_and_post_are_equal` returns `true`: the matcher's step 3
applies the shortening rule to the canonicalized text, canonicalizes the
result, and compares it to the post's canonicalized text. -/
theorem C1_round_trip_amended (toot : Status) (post : FeedViewPost)
    (h_toot_not_reply : toot.in_reply_to_id = none)
    (h_post_not_reply : post.reply = none)
    (h_no_reblog : toot.reblog = none)
    (h_decoded : bsky_post_unshorten_decode post =
      some (bsky_post_shorten (unify_post_content (mastodon_toot_get_text toot)) toot.url)) :
    toot_and_post_are_equal toot post = some true := by
  have hgate : ((toot.in_reply_to_id.isSome && post.reply.isNone)
      || (toot.in_reply_to_id.isNone && post.reply.isSome)) = false := by
    rw [h_toot_not_reply, h_post_not_reply]
    rfl
  rw [toot_and_post_are_equal, h_decoded, h_no_reblog, hgate]
  simp only [Bool.false_eq_true, if_false, Option.bind_eq_bind, Option.some_bind]
  split
  · rfl
  · simp

/-- C1 witness: a concrete instantiation of the amended round trip. -/
theorem C1_round_trip_witness :
    toot_and_post_are_equal c1w_toot c1w_post = some true :=
  C1_round_trip_amended c1w_toot c1w_post rfl rfl rfl (by decide)

/-- C2, counterexample: the `bsky_post_shorten` loop does NOT terminate
for every input. On a single 301-character token with a 301-character
link, every loop iterate keeps a count above 300 (the text empties after
one drop and the bare ellipsis-plus-link state, 303 characters, is a
fixpoint of the loop body), so the `while char_count > 300` loop never
exits. -/
theorem C2_termination_counterexample :
    ¬ shorten_halts 300 (some c2_url) c2_text := by
  rintro ⟨n, hn⟩
  have hfix : shorten_step (some c2_url) (shorten_iter (some c2_url) 1 (shorten_init c2_text)) =
      shorten_iter (some c2_url) 1 (shorten_init c2_text) := by decide
  have hstable : ∀ m, shorten_iter (some c2_url) (m + 1) (shorten_init c2_text) =
      shorten_iter (some c2_url) 1 (shorten_init c2_text) := by
    intro m
    induction m with
    | zero => rfl
    | succ k ih =>
      rw [shorten_iter_succ, ih, hfix]
  cases n with
  | zero =>
    have h0 : (shorten_iter (some c2_url) 0 (shorten_init c2_text)).char_count = 301 := by decide
    omega
  | succ m =>
    rw [hstable m] at hn
    have h1 : (shorten_iter (some c2_url) 1 (shorten_init c2_text)).char_count = 303 := by decide
    omega

/-- C2, amended: both shortening loops terminate for every text whose
appended link fits within the destination limit (no link at all, or
ellipsis-space-link within 300 / 500 grapheme clusters): dropping tokens
eventually empties the text, after which the state counts only the
appended link. When even the bare link exceeds the limit (the
counterexample), the loop never terminates — and correspondingly the loop
can never exit with an over-long result. -/
theorem C2_termination_amended :
    (∀ (text : Str) (url : Option Str),
       (match url with
        | some u => grapheme_count u + 2 ≤ 300
        | none => True) →
       shorten_halts 300 url text)
  ∧ (∀ (text : Str) (post : PostView) (post_id : Str),
       last_uri_segment post.uri = some post_id →
       grapheme_count (toot_shorten_link post post_id) + 2 ≤ 500 →
       shorten_halts 500 (some (toot_shorten_link post post_id)) text) := by
  constructor
  · intro text url hfit
    exact shorten_halts_of_link_fits 300 url text hfit
  · intro text post post_id _ hfit
    exact shorten_halts_of_link_fits 500 (some (toot_shorten_link post post_id)) text hfit

/-- C2 witness: concrete halting instances of both loops. -/
theorem C2_termination_witness :
    shorten_halts 300 (some (str "u")) (str "hello") ∧
    shorten_halts 500 (some (toot_shorten_link w_post (str "z"))) (str "hello") :=
  ⟨C2_termination_amended.1 (str "hello") (some (str "u")) (by decide),
   C2_termination_amended.2 (str "hello") w_post (str "z") (by decide) (by decide)⟩

/-- C3: whenever the shortening loop halts on an input (in particular
whenever some token drop with the link appended brings the text within
the limit — the single-long-token divergence excluded), the result of
`bsky_post_shorten` has at most 300 grapheme clusters and the result of
`toot_shorten` has at most 500, any appended ellipsis and link included:
the loop's exit condition is exactly the bound. -/
theorem C3_truncation_bound :
    (∀ (text : Str) (url : Option Str),
       shorten_halts 300 url text →
       grapheme_count (bsky_post_shorten text url) ≤ 300)
  ∧ (∀ (text : Str) (post : PostView) (out : Str),
       toot_shorten text post = some out →
       toot_shorten_halts text post →
       grapheme_count out ≤ 500) := by
  constructor
  · intro text url h
    exact shorten_run_bound 300 url text h
  · intro text post out hout hhalts
    rw [toot_shorten] at hout
    split at hout
    · rename_i hle
      cases hout
      exact hle
    · cases hseg : last_uri_segment post.uri with
      | none => rw [hseg] at hout; cases hout
      | some post_id =>
        rw [hseg] at hout
        cases hout
        exact shorten_run_bound 500 (some (toot_shorten_link post post_id)) text
          (hhalts post_id hseg)

/-- C3 witness: concrete bounded outputs of both shortening functions. -/
theorem C3_truncation_bound_witness :
    grapheme_count (bsky_post_shorten (str "hello world") none) ≤ 300 ∧
    grapheme_count (str "hi") ≤ 500 :=
  ⟨C3_truncation_bound.1 (str "hello world") none ⟨0, by decide⟩,
   C3_truncation_bound.2 (str "hi") w_post (str "hi") (by decide)
     (fun post_id h => by
        have hz : last_uri_segment w_post.uri = some (str "z") := by decide
        rw [hz] at h
        injection h with h'
        subst h'
        exact ⟨0, by decide⟩)⟩

/-- C4: replies never contribute: for every pair of input lists and every
`SyncOptions`, every `NewStatus` in the toots queue of `determine_posts`
comes from a Bluesky post without a reply reference, and every `NewStatus`
in the Bluesky queue comes from a Mastodon status without an
`in_reply_to_id`; each candidate carries exactly the text and attachments
derived from its non-reply source. -/
theorem C4_reply_exclusion (m : List Status) (b : List FeedViewPost)
    (o : SyncOptions) (u : StatusUpdates)
    (h : determine_posts m b o = some u) :
    (∀ ns ∈ u.toots, ∃ p ∈ b, p.reply = none ∧
       bsky_post_unshorten_decode p = some ns.text ∧
       ns.attachments = bsky_get_attachments p)
  ∧ (∀ ns ∈ u.bsky_posts, ∃ t ∈ m, t.in_reply_to_id = none ∧
       ns.text = toot_candidate_text t ∧
       ns.attachments = toot_get_attachments t) := by
  rw [determine_posts] at h
  cases hbp : bsky_pass m o b with
  | none => rw [hbp] at h; cases h
  | some toots_acc =>
    cases htp : toot_pass b o m with
    | none =>
      rw [hbp, htp] at h
      simp only [Option.bind_eq_bind, Option.some_bind, Option.none_bind] at h
      cases h
    | some bsky_acc =>
      rw [hbp, htp] at h
      simp only [Option.bind_eq_bind, Option.some_bind, Option.pure_def,
        Option.some.injEq] at h
      subst h
      constructor
      · intro ns hns
        simp only [StatusUpdates.reverse_order, List.mem_reverse] at hns
        exact bsky_pass_sound m o b toots_acc hbp ns hns
      · intro ns hns
        simp only [StatusUpdates.reverse_order, List.mem_reverse] at hns
        exact toot_pass_sound b o m bsky_acc htp ns hns

/-- C4 witness: a concrete planner run with one plain toot. -/
theorem C4_reply_exclusion_witness :
    (∀ ns ∈ w_updates.toots, ∃ p ∈ ([] : List FeedViewPost), p.reply = none ∧
       bsky_post_unshorten_decode p = some ns.text ∧
       ns.attachments = bsky_get_attachments p)
  ∧ (∀ ns ∈ w_updates.bsky_posts, ∃ t ∈ [w_toot], t.in_reply_to_id = none ∧
       ns.text = toot_candidate_text t ∧
       ns.attachments = toot_get_attachments t) :=
  C4_reply_exclusion [w_toot] [] default_options w_updates rfl

/-- C5: `determine_posts` returns each destination queue as the reverse of
the order in which the pass appended candidates while scanning the
newest-first inputs, so both returned lists are oldest-candidate-first. -/
theorem C5_output_ordering (m : List Status) (b : List FeedViewPost)
    (o : SyncOptions) (u : StatusUpdates)
    (h : determine_posts m b o = some u) :
    ∃ toots_appended bsky_appended,
      bsky_pass m o b = some toots_appended ∧
      toot_pass b o m = some bsky_appended ∧
      u = StatusUpdates.reverse_order
        { bsky_posts := bsky_appended, toots := toots_appended } ∧
      u.toots = toots_appended.reverse ∧
      u.bsky_posts = bsky_appended.reverse := by
  rw [determine_posts] at h
  cases hbp : bsky_pass m o b with
  | none => rw [hbp] at h; cases h
  | some toots_acc =>
    cases htp : toot_pass b o m with
    | none =>
      rw [hbp, htp] at h
      simp only [Option.bind_eq_bind, Option.some_bind, Option.none_bind] at h
      cases h
    | some bsky_acc =>
      rw [hbp, htp] at h
      simp only [Option.bind_eq_bind, Option.some_bind, Option.pure_def,
        Option.some.injEq] at h
      subst h
      exact ⟨toots_acc, bsky_acc, rfl, rfl, rfl, rfl, rfl⟩

/-- C5 witness: the concrete planner run, with both queues reversed. -/
theorem C5_output_ordering_witness :
    ∃ toots_appended bsky_appended,
      bsky_pass [w_toot] default_options [] = some toots_appended ∧
      toot_pass [] default_options [w_toot] = some bsky_appended ∧
      w_updates = StatusUpdates.reverse_order
        { bsky_posts := bsky_appended, toots := toots_appended } ∧
      w_updates.toots = toots_appended.reverse ∧
      w_updates.bsky_posts = bsky_appended.reverse :=
  C5_output_ordering [w_toot] [] default_options w_updates rfl

/-- C6: the duplicate guard returns `Ok` of exactly the input with each
destination queue filtered, independently, to the candidates whose text is
not in the cache, preserving the relative order of retained candidates
(`List.filter` keeps order). -/
theorem C6_duplicate_guard (posts : StatusUpdates) (post_cache : Finset Str) :
    filter_posted_before posts post_cache =
      .ok { bsky_posts := posts.bsky_posts.filter (fun p => decide (p.text ∉ post_cache)),
            toots := posts.toots.filter (fun p => decide (p.text ∉ post_cache)) } := by
  rw [filter_posted_before]
  split
  · rename_i hemp
    rw [Bool.and_eq_true, List.isEmpty_iff, List.isEmpty_iff] at hemp
    obtain ⟨htoots, hbsky⟩ := hemp
    cases posts with
    | mk bp ts =>
      simp only at htoots hbsky
      subst htoots
      subst hbsky
      rfl
  · rw [filter_cached_eq_filter, filter_cached_eq_filter]

/-- C9 (implicit): `filter_posted_before` returns `Ok` for every input;
the error case of its `Result` type is never produced. -/
theorem C9_filter_never_errs (posts : StatusUpdates) (post_cache : Finset Str) :
    ∃ filtered, filter_posted_before posts post_cache = .ok filtered := by
  rw [filter_posted_before]
  split
  · exact ⟨posts, rfl⟩
  · exact ⟨_, rfl⟩

/-- C7: `read_post_cache` returns the empty set on a read failure or a
parse failure, discards a parsed set of more than 150 entries wholesale,
returns the parsed set otherwise, and consequently never returns more than
150 entries. -/
theorem C7_cache_load (file : Option Str) (parse : Str → Option (Finset Str)) :
    read_post_cache file parse =
      (match file with
       | none => (∅ : Finset Str)
       | some json =>
         match parse json with
         | none => ∅
         | some cache => if 150 < cache.card then ∅ else cache)
    ∧ (read_post_cache file parse).card ≤ 150 := by
  constructor
  · cases file with
    | none => rfl
    | some json =>
      cases hp : parse json with
      | none => simp [read_post_cache, hp]
      | some cache => simp [read_post_cache, hp]
  · cases file with
    | none => simp [read_post_cache]
    | some json =>
      cases hp : parse json with
      | none => simp [read_post_cache, hp]
      | some cache =>
        simp only [read_post_cache, hp]
        split
        · simp
        · rename_i hle
          omega

/-- C8, counterexample: a Bluesky image whose alt text has 1001 characters
flows through `bsky_get_attachments` into the toots queue of
`determine_posts` unmodified — the claimed 1000-character bound fails for
attachments derived from Bluesky posts. -/
theorem C8_alt_text_counterexample :
    ∃ u, determine_posts [] [c8_post] default_options = some u ∧
      ∃ ns ∈ u.toots, ∃ media ∈ ns.attachments, ∃ a,
        media.alt_text = some a ∧ 1000 < a.length := by
  refine ⟨{ bsky_posts := []
          , toots := [NewStatus.mk (str "pic")
              [⟨str "u", some (List.replicate 1001 'x')⟩] [] none] }, rfl, ?_⟩
  refine ⟨_, List.mem_cons_self _ _, ⟨str "u", some (List.replicate 1001 'x')⟩,
    List.mem_cons_self _ _, List.replicate 1001 'x', rfl, ?_⟩
  simp

/-- C8, amended: attachments derived from Mastodon toots via
`toot_get_attachments` have alt text truncated to at most 1000 characters;
attachments derived from Bluesky posts via `bsky_get_attachments` copy the
embed image's alt text verbatim, with no bound applied. -/
theorem C8_alt_text_bound_amended :
    (∀ (toot : Status), ∀ media ∈ toot_get_attachments toot, ∀ a,
       media.alt_text = some a → a.length ≤ 1000)
  ∧ (∀ (bsky_post : FeedViewPost), ∀ media ∈ bsky_get_attachments bsky_post,
       ∃ image ∈ embed_images bsky_post,
         media = ⟨image.fullsize, some image.alt⟩) := by
  constructor
  · intro toot media hmem a ha
    simp only [toot_get_attachments, List.mem_map] at hmem
    obtain ⟨attachment, _, hmedia⟩ := hmem
    subst hmedia
    simp only at ha
    cases hdesc : attachment.description with
    | none => rw [hdesc] at ha; cases ha
    | some s =>
      rw [hdesc] at ha
      rw [truncate_option_string] at ha
      split at ha
      · rename_i hlen
        cases ha
        exact hlen
      · cases ha
        rw [List.length_take]
        omega
  · intro bsky_post media hmem
    rw [embed_images]
    cases hemb : bsky_post.post.embed with
    | none => simp [bsky_get_attachments, hemb] at hmem
    | some ev =>
      cases ev with
      | images images =>
        simp only [bsky_get_attachments, hemb, List.mem_map] at hmem
        obtain ⟨image, himg, hmedia⟩ := hmem
        exact ⟨image, himg, hmedia.symm⟩
      | record qh qv => simp [bsky_get_attachments, hemb] at hmem
      | otherEmbed => simp [bsky_get_attachments, hemb] at hmem

/-- C8 witness: the amended bound at a concrete toot attachment. -/
theorem C8_alt_text_bound_witness : (str "desc").length ≤ 1000 :=
  C8_alt_text_bound_amended.1 w_toot ⟨str "img", some (str "desc")⟩ (by decide)
    (str "desc") (by decide)

/-- C10 (implicit): in the Mastodon pass, a non-reply toot whose shortened
candidate text begins with `@` is skipped before the equality scan against
the Bluesky list, so it never triggers the first-match halt: the pass over
the remaining (older) toots proceeds exactly as if the toot were absent,
whatever the Bluesky list contains. -/
theorem C10_mention_skip (toot : Status) (rest : List Status)
    (b : List FeedViewPost) (o : SyncOptions)
    (h_not_reply : toot.in_reply_to_id = none)
    (h_at : starts_with_char (toot_candidate_text toot) '@' = true) :
    toot_pass b o (toot :: rest) = toot_pass b o rest := by
  rw [toot_pass, h_not_reply]
  simp only [Option.isSome_none, Bool.false_eq_true, if_false]
  by_cases hreblog : (toot.reblog.isSome && !o.sync_reblogs) = true
  · rw [if_pos hreblog]
  · rw [if_neg hreblog, if_pos h_at]

/-- C10 witness: a concrete `@`-toot is skipped without halting the pass. -/
theorem C10_mention_skip_witness :
    toot_pass [] default_options [c10_toot] = toot_pass [] default_options [] :=
  C10_mention_skip c10_toot [] [] default_options rfl (by decide)

end MBSync
